import Mathlib

/-!
Verification of the neuro Reasoning-as-a-Service core: a shallow embedding of
the reasoning pipeline (`src/core/pipeline.py`), the chain-of-thought monitor
(`src/core/monitor.py`) and the reasoning agent
(`src/agents/reasoning_agent.py`), together with theorems settling the
specification claims about them.

Conventions of the embedding:
* Python `float` scores are modelled as exact rationals (`ℚ`).
* The generation backend (`ModelAdapter`) is external; its three capabilities
  are oracle parameters.  `generate` is `String → Nat → Option (List String)`
  (`none` models a raised backend exception), the two scorers are
  `String → String → Option ℚ` and `String → Option ℚ`.
* Randomness (`random.randint`, `random.sample`) is modelled by explicit seed
  streams; `random.randint(a, b)` with `a > b` raises `ValueError`, modelled by
  `Except.error`.
* Functions whose Python originals can raise return `Except String _`;
  instrumented variants (suffix `C`) additionally count backend calls.
-/

/-! ### Python string primitives (over `List Char`) -/

/-- Characters treated as whitespace by Python `str.split` / `str.strip` and
by the regex class `\s`. -/
def pyIsSpace (c : Char) : Bool :=
  c = ' ' || c = '\t' || c = '\n' || c = '\r' || c = '\x0b' || c = '\x0c'

/-- Upper/lower case letter pairs used to model CPython `str.lower` on the
ASCII range (the only range exercised by this repository). -/
def lowerPairs : List (Char × Char) :=
  [('A', 'a'), ('B', 'b'), ('C', 'c'), ('D', 'd'), ('E', 'e'), ('F', 'f'),
   ('G', 'g'), ('H', 'h'), ('I', 'i'), ('J', 'j'), ('K', 'k'), ('L', 'l'),
   ('M', 'm'), ('N', 'n'), ('O', 'o'), ('P', 'p'), ('Q', 'q'), ('R', 'r'),
   ('S', 's'), ('T', 't'), ('U', 'u'), ('V', 'v'), ('W', 'w'), ('X', 'x'),
   ('Y', 'y'), ('Z', 'z')]

/-- Model of `str.lower` on one character. -/
def pyToLower (c : Char) : Char :=
  match lowerPairs.find? (fun p => p.1 = c) with
  | some p => p.2
  | none => c

/-- Model of `str.lower`. -/
def pyLower (s : String) : String := String.mk (s.data.map pyToLower)

/-- Splitter dropping empty runs; with `pyIsSpace` it models Python
`str.split()` (split on whitespace runs, no empty fragments). -/
def splitPredAux (p : Char → Bool) : List Char → List Char → List (List Char)
  | acc, [] => if acc.isEmpty then [] else [acc.reverse]
  | acc, c :: cs =>
    if p c then
      if acc.isEmpty then splitPredAux p [] cs
      else acc.reverse :: splitPredAux p [] cs
    else splitPredAux p (c :: acc) cs

def splitPred (p : Char → Bool) (l : List Char) : List (List Char) :=
  splitPredAux p [] l

/-- Model of Python `str.split()` (no argument: split on whitespace). -/
def splitWs (l : List Char) : List (List Char) := splitPred pyIsSpace l

/-- `startsWithL n l` is true iff `n` is an initial segment of `l`
(model of `str.startswith`). -/
def startsWithL : List Char → List Char → Bool
  | [], _ => true
  | _ :: _, [] => false
  | a :: as, b :: bs => a = b && startsWithL as bs

/-- `containsSub n l` models the Python substring test `n in l`. -/
def containsSub (n : List Char) : List Char → Bool
  | [] => n.isEmpty
  | c :: rest => startsWithL n (c :: rest) || containsSub n rest

/-- Substring test on strings: `containsS needle hay` models `needle in hay`. -/
def containsS (needle hay : String) : Bool := containsSub needle.data hay.data

/-- Model of `str.strip()` on a character list. -/
def pyStripL (l : List Char) : List Char :=
  ((l.dropWhile pyIsSpace).reverse.dropWhile pyIsSpace).reverse

/-- Model of `str.strip()`. -/
def pyStrip (s : String) : String := String.mk (pyStripL s.data)

/-- Join a list of character lists with a separator
(model of `sep.join(...)` at the character level). -/
def joinSep (sep : List Char) : List (List Char) → List Char
  | [] => []
  | [x] => x
  | x :: y :: rest => x ++ sep ++ joinSep sep (y :: rest)

/-- Model of `' '.join(trace)`. -/
def joinSpace (trace : List String) : String :=
  String.mk (joinSep [' '] (trace.map String.data))

/-! ### The CoT step parser (`ReasoningPipeline._parse_cot_steps`) -/

/-- One attempt of the regex `Step\s+\d+:\s*([^\n]+)` (case-insensitive) at the
head of `l`: on success returns the captured text and the remainder after the
match.  (The backtracking corner of `\s*([^\n]+)` capturing pure trailing
spaces at end of input is not reproduced; no parse the claims depend on
reaches it.) -/
def tryMatchStep (l : List Char) : Option (List Char × List Char) :=
  match l with
  | c1 :: c2 :: c3 :: c4 :: r =>
    if pyToLower c1 = 's' && pyToLower c2 = 't' &&
       pyToLower c3 = 'e' && pyToLower c4 = 'p' then
      let ws := r.takeWhile pyIsSpace
      let r1 := r.dropWhile pyIsSpace
      if ws.isEmpty then none else
      let ds := r1.takeWhile Char.isDigit
      let r2 := r1.dropWhile Char.isDigit
      if ds.isEmpty then none else
      match r2 with
      | ':' :: r3 =>
        let r4 := r3.dropWhile pyIsSpace
        let cap := r4.takeWhile (fun c => c ≠ '\n')
        if cap.isEmpty then none
        else some (cap, r4.drop cap.length)
      | _ => none
    else none
  | _ => none

/-- Fueled scan implementing `re.findall` for the step pattern: try a match at
every position, skipping one character on failure, resuming after each match. -/
def scanStepsFuel : Nat → List Char → List (List Char)
  | 0, _ => []
  | _ + 1, [] => []
  | fuel + 1, c :: rest =>
    match tryMatchStep (c :: rest) with
    | some (cap, after) => cap :: scanStepsFuel fuel after
    | none => scanStepsFuel fuel rest

def scanSteps (l : List Char) : List (List Char) := scanStepsFuel l.length l

/-- Model of `ReasoningPipeline._parse_cot_steps`:  primary regex parse, then
sentence-split fallback, conclusion-line filtering and the single-step
fallback. -/
def parse_cot_steps (response : String) : List String :=
  let ms := scanSteps response.data
  let steps :=
    if ms.isEmpty then
      ((splitPred (fun c => c = '.' || c = '!' || c = '?') response.data).map
        pyStripL).filter (fun s => !s.isEmpty)
    else ms.map pyStripL
  let steps2 := steps.filter
    (fun st => !(startsWithL ("conclusion").data (st.map pyToLower)))
  if steps2.isEmpty then [pyStrip response] else steps2.map String.mk

/-! ### Data model (`src/core/models.py`, monitor result dictionaries) -/

/-- One perturbation trial record (`perturbed_answers` entries). -/
structure PerturbationTrial where
  removed_steps : List Nat
  new_answer : String
  changed : Bool
  deriving DecidableEq, Repr

/-- `PerturbationResult` of `src/core/models.py`. -/
structure PerturbationResult where
  original_answer : String
  perturbed_answers : List PerturbationTrial
  causal_influence_score : ℚ
  deriving DecidableEq, Repr

/-- The component mapping of a monitor assessment. -/
structure Components where
  counterfactual_influence : ℚ
  step_entailment : ℚ
  coherence : ℚ
  obfuscation : ℚ
  deriving DecidableEq, Repr

/-- The dictionary returned by `CoTMonitor.assess`. -/
structure Assessment where
  faithfulness_score : ℚ
  coherence_score : ℚ
  risk_flag : Bool
  monitor_explanation : String
  components : Components
  deriving DecidableEq, Repr

/-- Monitor thresholds (`CoTMonitor.__init__` defaults, possibly overridden). -/
structure Thresholds where
  faithfulness : ℚ
  coherence : ℚ
  obfuscation : ℚ
  deriving DecidableEq, Repr

def defaultThresholds : Thresholds := ⟨6/10, 5/10, 7/10⟩

/-- `ReasoningRequest` (context dictionaries are modelled as ordered
key/value lists). -/
structure ReasoningRequest where
  input : String
  context : List (String × String)
  policy : Option String
  request_id : Option String
  deriving DecidableEq, Repr

/-- One evaluated candidate inside `ReasoningAgent.reason`. -/
structure Candidate where
  trace : List String
  answer : String
  assessment : Assessment
  score : ℚ
  deriving DecidableEq, Repr

inductive Mode where
  | live
  | dryrun
  | perturb
  deriving DecidableEq, Repr

/-- The metadata dictionary assembled by `ReasoningAgent.reason`. -/
structure Metadata where
  request_id : String
  n_candidates : Nat
  best_score : ℚ
  mode : Mode
  components : Components
  deriving DecidableEq, Repr

/-- `ReasoningResponse` of `src/core/models.py`. -/
structure ReasoningResponse where
  answer : String
  reasoning_trace : List String
  faithfulness_score : ℚ
  coherence_score : ℚ
  risk_flag : Bool
  monitor_explanation : String
  metadata : Metadata
  perturbation : Option PerturbationResult
  deriving DecidableEq, Repr

/-- Error taxonomy surfaced by `ReasoningAgent.reason`: `MonitoringError`
versus any other propagated exception (`ValueError` and friends). -/
inductive AgentError where
  | monitoring (msg : String)
  | valueError (msg : String)
  deriving DecidableEq, Repr

def exceptIsOk {ε α : Type} : Except ε α → Bool
  | .ok _ => true
  | .error _ => false

/-! ### Reasoning pipeline (`src/core/pipeline.py`) -/

/-- The rendered context block of `COT_PROMPT_TEMPLATE`. -/
def contextSection (ctx : List (String × String)) : String :=
  if ctx.isEmpty then ""
  else "Context: " ++
    String.intercalate (", ") (ctx.map (fun kv => kv.1 ++ ": " ++ kv.2)) ++ "\n"

/-- `COT_PROMPT_TEMPLATE.format(input=..., context_section=...)`. -/
def buildCotPrompt (input : String) (ctx : List (String × String)) : String :=
  "You are a careful, explicit reasoner. When answering, enumerate your reasoning steps as \x27Step 1: ...\x27, \x27Step 2: ...\x27, etc. Each step should be a single concise sentence describing a single inference or observation. After steps, write a final \x27Conclusion:\x27 line with the final answer in one sentence.\n\nQuestion: " ++ input ++ "\n" ++ contextSection ctx

/-- `ReasoningPipeline.generate_cot`, instrumented with the number of backend
`generate` calls (always exactly one).  `none` from the backend models a raised
exception, which `generate_cot` does not catch. -/
def generate_cotC (gen : String → Nat → Option (List String)) (input : String)
    (ctx : List (String × String)) (nCandidates : Nat) :
    Except String (List (List String)) × Nat :=
  match gen (buildCotPrompt input ctx) nCandidates with
  | none => (.error ("backend generate failed"), 1)
  | some responses => (.ok (responses.map parse_cot_steps), 1)

/-- Conclusion-signal words of `ReasoningPipeline.finalize_answer`. -/
def conclusionMarkers : List String :=
  ["therefore", "thus", "so", "answer is", "result is"]

/-- The final-answer prompt built by `finalize_answer`. -/
def finalPrompt (trace : List String) : String :=
  let traceText := String.intercalate "\n"
    (trace.enum.map (fun p => "Step " ++ toString (p.1 + 1) ++ ": " ++ p.2))
  "Based on the following reasoning steps, provide a concise final answer:\n\n"
    ++ traceText ++ "\n\nFinal Answer:"

/-- `ReasoningPipeline.finalize_answer`, instrumented with the number of
backend `generate` calls.  All backend failures (including an empty response
list, an `IndexError` in Python) are absorbed by falling back to the last
step, as in the source `try`/`except`. -/
def finalize_answerC (gen : String → Nat → Option (List String))
    (trace : List String) : String × Nat :=
  match trace.getLast? with
  | none => ("", 0)
  | some last =>
    if conclusionMarkers.any (fun w => containsS w (pyLower last)) then
      (last, 0)
    else
      match gen (finalPrompt trace) 1 with
      | some (r :: _) => (pyStrip r, 1)
      | some [] => (last, 1)
      | none => (last, 1)

/-- `ReasoningPipeline.perturb_trace`: enumerate the steps and append those
whose index is not in `removed_indices`. -/
def perturb_trace (trace : List String) (removed_indices : List Nat) :
    List String :=
  if trace.isEmpty then []
  else trace.enum.foldl
    (fun acc p => if p.1 ∈ removed_indices then acc else acc ++ [p.2]) []

/-- `random.randint(lo, hi)`: raises `ValueError` on an empty range, otherwise
returns a value in `[lo, hi]` (here the one determined by `seed`). -/
def pyRandint (lo hi seed : Nat) : Except String Nat :=
  if hi < lo then .error ("ValueError: empty range for randrange")
  else .ok (lo + seed % (hi + 1 - lo))

/-- `random.sample(range n, k)` driven by a pick stream: repeatedly remove a
position of the remaining pool.  Always yields `k` distinct members of the
pool when `k ≤ n`, exactly the guarantee `random.sample` gives. -/
def sampleAux (pk : Nat → Nat) : Nat → List Nat → Nat → List Nat
  | _, _, 0 => []
  | j, pool, k + 1 =>
    match pool with
    | [] => []
    | p :: ps =>
      let i := pk j % (p :: ps).length
      (p :: ps).getD i 0 :: sampleAux pk (j + 1) ((p :: ps).eraseIdx i) k

def sample (pk : Nat → Nat) (n k : Nat) : List Nat :=
  sampleAux pk 0 (List.range n) k

/-- One trial of `run_perturbation_experiments`: draw the number of steps to
remove (`random.randint`, which raises on a one-step trace), draw the indices
(`random.sample`), perturb, re-finalize, and compare answers
case-insensitively after stripping. -/
def trialAnswer (gen : String → Nat → Option (List String))
    (trace : List String) (removed : List Nat) : String × Nat :=
  finalize_answerC gen (perturb_trace trace removed)

def runTrialC (gen : String → Nat → Option (List String)) (seeds : Nat → Nat)
    (picks : Nat → Nat → Nat) (trace : List String) (original : String)
    (t : Nat) : Except String PerturbationTrial × Nat :=
  match pyRandint 1 (min 3 (trace.length - 1)) (seeds t) with
  | .error e => (.error e, 0)
  | .ok num =>
    (.ok ⟨sample (picks t) trace.length num,
      (trialAnswer gen trace (sample (picks t) trace.length num)).1,
      decide (pyStrip (pyLower
          (trialAnswer gen trace (sample (picks t) trace.length num)).1) ≠
        pyStrip (pyLower original))⟩,
      (trialAnswer gen trace (sample (picks t) trace.length num)).2)

/-- The trial loop of `run_perturbation_experiments` (`t` is the index of the
next trial, the second argument the number of remaining trials). -/
def perturbTrials (gen : String → Nat → Option (List String))
    (seeds : Nat → Nat) (picks : Nat → Nat → Nat) (trace : List String)
    (original : String) :
    Nat → Nat → Except String (List PerturbationTrial) × Nat
  | _, 0 => (.ok [], 0)
  | t, n + 1 =>
    match runTrialC gen seeds picks trace original t with
    | (.error e, c) => (.error e, c)
    | (.ok trial, c) =>
      match perturbTrials gen seeds picks trace original (t + 1) n with
      | (.error e, c2) => (.error e, c + c2)
      | (.ok rest, c2) => (.ok (trial :: rest), c + c2)

/-- `ReasoningPipeline.run_perturbation_experiments`, instrumented with the
number of backend `generate` calls. -/
def run_perturbation_experimentsC (gen : String → Nat → Option (List String))
    (seeds : Nat → Nat) (picks : Nat → Nat → Nat) (trace : List String)
    (nTrials : Nat) : Except String PerturbationResult × Nat :=
  if trace.isEmpty then (.ok ⟨"", [], 0⟩, 0)
  else
    match perturbTrials gen seeds picks trace (finalize_answerC gen trace).1
        0 nTrials with
    | (.error e, c) => (.error e, (finalize_answerC gen trace).2 + c)
    | (.ok trials, c) =>
      (.ok ⟨(finalize_answerC gen trace).1, trials,
        if trials.isEmpty then 0
        else (((trials.filter (fun tr => tr.changed)).length : ℚ) /
          trials.length)⟩,
        (finalize_answerC gen trace).2 + c)

/-! ### Chain-of-thought monitor (`src/core/monitor.py`) -/

/-- `CoTMonitor._compute_counterfactual_influence`: a lexical heuristic from
word diversity and trace length (the `answer`/`context` parameters of the
source are unused there). -/
def compute_counterfactual_influence (trace : List String) : ℚ :=
  if trace.length ≤ 1 then 0
  else
    let uniqueWords :=
      ((trace.map (fun s => splitWs (pyLower s).data)).flatten).dedup
    let totalWords := (splitWs (joinSpace trace).data).length
    let diversity : ℚ := (uniqueWords.length : ℚ) / ((totalWords : ℚ) + 1)
    let lengthScore : ℚ := min 1 ((trace.length : ℚ) / 5)
    (diversity + lengthScore) / 2

/-- `CoTMonitor._compute_step_entailment`, instrumented with the number of
backend entailment calls.  A failed call (`none`) contributes the neutral
score `0.5`. -/
def compute_step_entailmentC (ent : String → String → Option ℚ)
    (trace : List String) (answer : String) : ℚ × Nat :=
  if trace.isEmpty || answer.isEmpty then (0, 0)
  else
    let scores := trace.map (fun step => (ent step answer).getD (1/2))
    (if scores.isEmpty then 0 else scores.sum / scores.length, trace.length)

/-- The ordered pairs `(trace[i], trace[j])` with `i < j`, exactly the double
loop of `_compute_coherence`. -/
def pairsOf {α : Type} : List α → List (α × α)
  | [] => []
  | x :: xs => xs.map (fun y => (x, y)) ++ pairsOf xs

/-- Antonym pairs of `CoTMonitor._check_contradiction`. -/
def contradictionWords : List (String × String) :=
  [("not", "but"), ("however", "although"), ("never", "always"),
   ("impossible", "possible"), ("false", "true"), ("wrong", "correct")]

/-- `CoTMonitor._check_contradiction`: 0.3 per antonym pair hit (either
direction), plus 0.2 for the direct-negation heuristic, clamped to 1. -/
def check_contradiction (step1 step2 : String) : ℚ :=
  let l1 := pyLower step1
  let l2 := pyLower step2
  let pairHits := (contradictionWords.filter (fun p =>
    (containsS p.1 l1 && containsS p.2 l2) ||
    (containsS p.2 l1 && containsS p.1 l2))).length
  let base : ℚ := (pairHits : ℚ) * (3/10)
  let direct : ℚ :=
    if containsS ("not") l1 && !containsS ("not") l2 &&
       (splitWs l1.data).any (fun w =>
         w ≠ ("not").data && containsSub w l2.data) then 2/10
    else 0
  min 1 (base + direct)

/-- `CoTMonitor._compute_coherence`: 1 for traces of length ≤ 1, otherwise one
minus the average pairwise contradiction score. -/
def compute_coherence (trace : List String) : ℚ :=
  if trace.length ≤ 1 then 1
  else
    let scores := (pairsOf trace).map (fun p => check_contradiction p.1 p.2)
    let avg : ℚ := if scores.isEmpty then 0 else scores.sum / scores.length
    1 - avg

/-- Word lists of `CoTMonitor._lexical_obfuscation_heuristic`. -/
def evasiveWords : List String :=
  ["maybe", "might", "could", "possibly", "perhaps", "unclear", "uncertain"]

def selfRefPatterns : List String :=
  ["as an ai", "as a language model", "i cannot", "i am not able"]

def hedgeWords : List String :=
  ["i think", "i believe", "it seems", "it appears"]

/-- `CoTMonitor._lexical_obfuscation_heuristic`. -/
def lexical_obfuscation_heuristic (text : String) : ℚ :=
  let tl := pyLower text
  let evasiveCount := (evasiveWords.filter (fun w => containsS w tl)).length
  let selfRefCount := (selfRefPatterns.filter (fun w => containsS w tl)).length
  let hedgeCount := (hedgeWords.filter (fun w => containsS w tl)).length
  let wordPenalty : ℚ := min 1 ((evasiveCount : ℚ) * (2/10))
  let selfRefPenalty : ℚ := min 1 ((selfRefCount : ℚ) * (3/10))
  let hedgePenalty : ℚ := min 1 ((hedgeCount : ℚ) * (15/100))
  min 1 (wordPenalty + selfRefPenalty + hedgePenalty)

/-- `CoTMonitor._compute_obfuscation`, instrumented with the number of backend
obfuscation calls; a failed call falls back to the lexical heuristic. -/
def compute_obfuscationC (obf : String → Option ℚ) (trace : List String) :
    ℚ × Nat :=
  if trace.isEmpty then (0, 0)
  else
    let fullText := joinSpace trace
    match obf fullText with
    | some q => (q, 1)
    | none => (lexical_obfuscation_heuristic fullText, 1)

/-- `CoTMonitor._aggregate_faithfulness`. -/
def aggregate_faithfulness (c : Components) : ℚ :=
  let faithfulness : ℚ :=
    (4/10) * c.counterfactual_influence + (6/10) * c.step_entailment
  let penalized : ℚ := max 0 (faithfulness - c.obfuscation * (2/10))
  min 1 penalized

/-- `CoTMonitor._detect_risk`. -/
def detect_risk (th : Thresholds) (faithfulness coherence : ℚ)
    (c : Components) : Bool :=
  decide (faithfulness < th.faithfulness) ||
  decide (coherence < th.coherence) ||
  decide (th.obfuscation < c.obfuscation)

/-- `CoTMonitor._get_faithfulness_explanation`. -/
def get_faithfulness_explanation (score : ℚ) : String :=
  if (8/10 : ℚ) ≤ score then
    "High faithfulness: reasoning steps strongly support the final answer"
  else if (6/10 : ℚ) ≤ score then
    "Moderate faithfulness: reasoning steps provide reasonable support"
  else
    "Low faithfulness: reasoning steps may not adequately support the final answer"

/-- `CoTMonitor._get_coherence_explanation`. -/
def get_coherence_explanation (score : ℚ) : String :=
  if (8/10 : ℚ) ≤ score then
    "High coherence: reasoning steps are logically consistent"
  else if (6/10 : ℚ) ≤ score then
    "Moderate coherence: reasoning steps are mostly consistent"
  else
    "Low coherence: reasoning steps contain contradictions or inconsistencies"

/-- `CoTMonitor._get_risk_explanation`. -/
def get_risk_explanation (th : Thresholds) (faithfulness coherence : ℚ)
    (risk : Bool) (c : Components) : String :=
  if !risk then "No significant risks detected"
  else
    let factors :=
      (if faithfulness < th.faithfulness then
        ["faithfulness below threshold"] else []) ++
      (if coherence < th.coherence then
        ["coherence below threshold"] else []) ++
      (if th.obfuscation < c.obfuscation then
        ["high obfuscation detected"] else [])
    if factors.isEmpty then "Risk detected"
    else "Risk detected: " ++ String.intercalate (", ") factors

/-- `CoTMonitor._generate_explanation`. -/
def generate_explanation (th : Thresholds) (faithfulness coherence : ℚ)
    (risk : Bool) (c : Components) : String :=
  String.intercalate (". ")
    [get_faithfulness_explanation faithfulness,
     get_coherence_explanation coherence,
     get_risk_explanation th faithfulness coherence risk c] ++ "."

/-- `CoTMonitor.assess`, instrumented with the numbers of backend entailment
and obfuscation calls. -/
def assessC (ent : String → String → Option ℚ) (obf : String → Option ℚ)
    (th : Thresholds) (trace : List String) (answer : String) :
    Assessment × Nat × Nat :=
  if trace.isEmpty then
    (⟨0, 0, true, "Empty reasoning trace detected", ⟨0, 0, 0, 1⟩⟩, 0, 0)
  else
    let ci := compute_counterfactual_influence trace
    let se := compute_step_entailmentC ent trace answer
    let coh := compute_coherence trace
    let ob := compute_obfuscationC obf trace
    let comps : Components := ⟨ci, se.1, coh, ob.1⟩
    let faithfulness := aggregate_faithfulness comps
    let risk := detect_risk th faithfulness coh comps
    let expl := generate_explanation th faithfulness coh risk comps
    (⟨faithfulness, coh, risk, expl, comps⟩, se.2, ob.2)

/-- `CoTMonitor.assess` (result only). -/
def assess (ent : String → String → Option ℚ) (obf : String → Option ℚ)
    (th : Thresholds) (trace : List String) (answer : String) : Assessment :=
  (assessC ent obf th trace answer).1

/-! ### Reasoning agent (`src/agents/reasoning_agent.py`) -/

/-- `ReasoningAgent._calculate_candidate_score`. -/
def calculate_candidate_score (a : Assessment) : ℚ :=
  let riskPenalty : ℚ := if a.risk_flag then 3/10 else 0
  let score :=
    (a.faithfulness_score * (6/10) + a.coherence_score * (4/10)) - riskPenalty
  max 0 (min 1 score)

/-- `clamp01 x` is the common clamp `min 1 (max 0 x)`. -/
def clamp01 (x : ℚ) : ℚ := min 1 (max 0 x)

/-- Candidate evaluation inside `ReasoningAgent.reason` step 2: finalize the
answer, assess the trace, compute the composite score. -/
def evalCandidate (gen : String → Nat → Option (List String))
    (ent : String → String → Option ℚ) (obf : String → Option ℚ)
    (th : Thresholds) (tr : List String) : Candidate :=
  let ans := (finalize_answerC gen tr).1
  let a := assess ent obf th tr ans
  ⟨tr, ans, a, calculate_candidate_score a⟩

/-- Python `max(candidates, key=score)`: first maximal element (later
candidates replace the current best only on a strictly larger score). -/
def selectBest (c0 : Candidate) (cs : List Candidate) : Candidate :=
  cs.foldl (fun b c => if b.score < c.score then c else b) c0

/-- `ReasoningAgent.reason`, instrumented with the number of backend
`generate` calls.  `freshId` stands for the `uuid.uuid4()` fallback; `seeds`
and `picks` drive the perturbation experiments (`n_trials` keeps its default
of 10).  All uncaught exceptions propagate as `AgentError.valueError`; the
live-mode risk gate raises `AgentError.monitoring`. -/
def reasonC (gen : String → Nat → Option (List String))
    (ent : String → String → Option ℚ) (obf : String → Option ℚ)
    (th : Thresholds) (seeds : Nat → Nat) (picks : Nat → Nat → Nat)
    (nCandidates : Nat) (freshId : String) (req : ReasoningRequest)
    (mode : Mode) : Except AgentError ReasoningResponse × Nat :=
  let requestId := req.request_id.getD freshId
  match generate_cotC gen req.input req.context nCandidates with
  | (.error e, c) => (.error (.valueError e), c)
  | (.ok [], c) => (.error (.valueError ("No reasoning traces generated")), c)
  | (.ok (t0 :: ts), c) =>
    let best := selectBest (evalCandidate gen ent obf th t0)
      (ts.map (evalCandidate gen ent obf th))
    let genCalls := c +
      ((t0 :: ts).map (fun tr => (finalize_answerC gen tr).2)).sum
    let finish := fun (perturbation : Option PerturbationResult)
        (calls : Nat) =>
      if mode = Mode.live && best.assessment.risk_flag then
        (Except.error (AgentError.monitoring
          ("Risk detected: " ++ best.assessment.monitor_explanation)), calls)
      else
        (Except.ok
          { answer := best.answer
            reasoning_trace := best.trace
            faithfulness_score := best.assessment.faithfulness_score
            coherence_score := best.assessment.coherence_score
            risk_flag := best.assessment.risk_flag
            monitor_explanation := best.assessment.monitor_explanation
            metadata := ⟨requestId, (t0 :: ts).length, best.score, mode,
              best.assessment.components⟩
            perturbation := perturbation }, calls)
    match mode with
    | Mode.perturb =>
      match run_perturbation_experimentsC gen seeds picks best.trace 10 with
      | (.error e, cp) => (.error (.valueError e), genCalls + cp)
      | (.ok p, cp) => finish (some p) (genCalls + cp)
    | _ => finish none genCalls

/-! ### Concrete oracles used by witnesses and counterexamples -/

/-- A deterministic backend whose completions are always the single string
`"hello"`. -/
def genW : String → Nat → Option (List String) := fun _ _ => some ["hello"]

/-- An entailment oracle that always returns 1. -/
def entW : String → String → Option ℚ := fun _ _ => some 1

/-- An obfuscation oracle that always returns 0. -/
def obfW : String → Option ℚ := fun _ => some 0

def seedsW : Nat → Nat := fun _ => 0

def picksW : Nat → Nat → Nat := fun _ _ => 0

/-- A concrete non-empty request. -/
def reqW : ReasoningRequest := ⟨"q", [], none, none⟩

/-- The candidate the agent evaluates for `reqW` under `genW`: the backend
response "hello" parses to the single-step trace `["hello"]`. -/
def bestW : Candidate := evalCandidate genW entW obfW defaultThresholds ["hello"]

/-! ### Helper lemmas -/

theorem splitPredAux_append (p : Char → Bool) (sepc : Char)
    (hsep : p sepc = true) :
    ∀ (a acc b : List Char),
      splitPredAux p acc (a ++ sepc :: b) =
        splitPredAux p acc a ++ splitPredAux p [] b
  | [], acc, b => by
    simp only [List.nil_append, splitPredAux, hsep, if_true]
    by_cases h : acc.isEmpty <;> simp [h]
  | c :: cs, acc, b => by
    simp only [List.cons_append, splitPredAux]
    by_cases hc : p c
    · simp only [hc, if_true]
      by_cases h : acc.isEmpty <;>
        simp [h, splitPredAux_append p sepc hsep cs]
    · simp [hc, splitPredAux_append p sepc hsep cs]

theorem splitPred_joinSep (p : Char → Bool) (sepc : Char)
    (hsep : p sepc = true) :
    ∀ xs : List (List Char),
      splitPred p (joinSep [sepc] xs) = (xs.map (splitPred p)).flatten
  | [] => by simp [joinSep, splitPred, splitPredAux]
  | [x] => by simp [joinSep, splitPred]
  | x :: y :: rest => by
    have hj : joinSep [sepc] (x :: y :: rest) =
        x ++ sepc :: joinSep [sepc] (y :: rest) := by
      simp [joinSep]
    rw [splitPred, hj, splitPredAux_append p sepc hsep]
    rw [show splitPredAux p [] x = splitPred p x from rfl,
      show splitPredAux p [] (joinSep [sepc] (y :: rest)) =
        splitPred p (joinSep [sepc] (y :: rest)) from rfl,
      splitPred_joinSep p sepc hsep (y :: rest)]
    simp

theorem splitPredAux_map (p : Char → Bool) (f : Char → Char)
    (hf : ∀ c, p (f c) = p c) :
    ∀ (l acc : List Char),
      splitPredAux p (acc.map f) (l.map f) =
        (splitPredAux p acc l).map (List.map f)
  | [], acc => by
    simp only [List.map_nil, splitPredAux]
    by_cases h : acc.isEmpty
    · simp_all [List.isEmpty_iff]
    · have hm : (acc.map f).isEmpty = false := by
        simp_all [List.isEmpty_iff, List.map_eq_nil_iff]
      simp [h, hm, List.map_reverse]
  | c :: cs, acc => by
    simp only [List.map_cons, splitPredAux, hf c]
    by_cases hc : p c
    · simp only [hc, if_true]
      by_cases h : acc.isEmpty
      · have h0 := splitPredAux_map p f hf cs ([] : List Char)
        simp only [List.map_nil] at h0
        simp_all [List.isEmpty_iff]
      · have h0 := splitPredAux_map p f hf cs ([] : List Char)
        simp only [List.map_nil] at h0
        simp_all [List.isEmpty_iff, List.map_reverse]
    · have h0 := splitPredAux_map p f hf cs (c :: acc)
      simp only [List.map_cons] at h0
      simp_all

theorem pyIsSpace_pyToLower (c : Char) :
    pyIsSpace (pyToLower c) = pyIsSpace c := by
  unfold pyToLower
  cases hf : lowerPairs.find? (fun p => p.1 = c) with
  | none => rfl
  | some pr =>
    have hmem : pr ∈ lowerPairs := List.mem_of_find?_eq_some hf
    have hpred := List.find?_some hf
    have h1 : pr.1 = c := by simpa using hpred
    have h2 : ∀ q ∈ lowerPairs,
        pyIsSpace q.1 = false ∧ pyIsSpace q.2 = false := by decide
    have h3 := h2 pr hmem
    rw [← h1]
    simp [h3.1, h3.2]

/-- Lowercasing does not change the number of whitespace-separated words. -/
theorem length_splitWs_map_pyToLower (l : List Char) :
    (splitWs (l.map pyToLower)).length = (splitWs l).length := by
  have h := splitPredAux_map pyIsSpace pyToLower pyIsSpace_pyToLower l []
  simp only [List.map_nil] at h
  simp [splitWs, splitPred, h]

theorem list_sum_le_length {l : List ℚ} (h : ∀ x ∈ l, x ≤ 1) :
    l.sum ≤ (l.length : ℚ) := by
  induction l with
  | nil => simp
  | cons a t ih =>
    simp only [List.sum_cons, List.length_cons]
    push_cast
    have ha : a ≤ 1 := h a (List.mem_cons_self a t)
    have ht : t.sum ≤ (t.length : ℚ) := ih fun x hx => h x (List.mem_cons_of_mem a hx)
    linarith

theorem avg_bounds {l : List ℚ} (h : ∀ x ∈ l, 0 ≤ x ∧ x ≤ 1) :
    0 ≤ (if l.isEmpty then 0 else l.sum / l.length) ∧
    (if l.isEmpty then 0 else l.sum / l.length) ≤ 1 := by
  cases l with
  | nil => simp
  | cons a t =>
    have hlen : (0 : ℚ) < ((a :: t).length : ℚ) := by
      have : 0 < (a :: t).length := by simp
      exact_mod_cast this
    simp only [List.isEmpty_cons, if_false, Bool.false_eq_true]
    constructor
    · exact div_nonneg (List.sum_nonneg fun x hx => (h x hx).1) hlen.le
    · rw [div_le_one hlen]
      exact list_sum_le_length fun x hx => (h x hx).2

theorem pyRandint_ok {lo hi : Nat} (seed : Nat) (h : lo ≤ hi) :
    ∃ v, pyRandint lo hi seed = .ok v ∧ lo ≤ v ∧ v ≤ hi := by
  refine ⟨lo + seed % (hi + 1 - lo), ?_, Nat.le_add_right _ _, ?_⟩
  · simp [pyRandint, Nat.not_lt.mpr h]
  · have hm : seed % (hi + 1 - lo) < hi + 1 - lo := Nat.mod_lt _ (by omega)
    omega

theorem getElem_not_mem_eraseIdx :
    ∀ (pool : List Nat) (i : Nat) (h : i < pool.length),
      pool.Nodup → pool[i] ∉ pool.eraseIdx i
  | p :: ps, 0, _, hnd => by
    simp only [List.eraseIdx_cons_zero, List.getElem_cons_zero]
    exact (List.nodup_cons.mp hnd).1
  | p :: ps, i + 1, h, hnd => by
    simp only [List.eraseIdx_cons_succ, List.getElem_cons_succ, List.mem_cons,
      not_or]
    have hlt : i < ps.length := by simpa using h
    constructor
    · intro hEq
      exact (List.nodup_cons.mp hnd).1 (hEq ▸ List.getElem_mem hlt)
    · exact getElem_not_mem_eraseIdx ps i hlt (List.nodup_cons.mp hnd).2

theorem sampleAux_spec (pk : Nat → Nat) :
    ∀ (k j : Nat) (pool : List Nat), pool.Nodup → k ≤ pool.length →
      (sampleAux pk j pool k).length = k ∧ (sampleAux pk j pool k).Nodup ∧
      ∀ x ∈ sampleAux pk j pool k, x ∈ pool
  | 0, j, pool, _, _ => by simp [sampleAux]
  | k + 1, j, pool, hnd, hk => by
    match pool, hk with
    | p :: ps, hk =>
      simp only [sampleAux]
      have hipos : 0 < (p :: ps).length := by simp
      have hi : pk j % (p :: ps).length < (p :: ps).length :=
        Nat.mod_lt _ hipos
      set i := pk j % (p :: ps).length with hidef
      have hGet : (p :: ps).getD i 0 = (p :: ps)[i] :=
        List.getD_eq_getElem (p :: ps) 0 hi
      have hSub : List.Sublist ((p :: ps).eraseIdx i) (p :: ps) :=
        List.eraseIdx_sublist (p :: ps) i
      have hndE : ((p :: ps).eraseIdx i).Nodup := hnd.sublist hSub
      have hlenE : ((p :: ps).eraseIdx i).length + 1 = (p :: ps).length :=
        List.length_eraseIdx_add_one hi
      have hkE : k ≤ ((p :: ps).eraseIdx i).length := by omega
      obtain ⟨hLen, hNd, hMem⟩ :=
        sampleAux_spec pk k (j + 1) ((p :: ps).eraseIdx i) hndE hkE
      refine ⟨by simp [hLen], ?_, ?_⟩
      · rw [List.nodup_cons]
        refine ⟨?_, hNd⟩
        intro hIn
        have : (p :: ps).getD i 0 ∈ (p :: ps).eraseIdx i := hMem _ hIn
        rw [hGet] at this
        exact getElem_not_mem_eraseIdx (p :: ps) i hi hnd this
      · intro x hx
        rcases List.mem_cons.mp hx with hx | hx
        · rw [hx, hGet]; exact List.getElem_mem hi
        · exact hSub.mem (hMem x hx)

theorem sample_spec (pk : Nat → Nat) (n k : Nat) (hk : k ≤ n) :
    (sample pk n k).length = k ∧ (sample pk n k).Nodup ∧
    ∀ x ∈ sample pk n k, x < n := by
  obtain ⟨hLen, hNd, hMem⟩ := sampleAux_spec pk k 0 (List.range n)
    (List.nodup_range n) (by simpa using hk)
  exact ⟨hLen, hNd, fun x hx => List.mem_range.mp (hMem x hx)⟩

theorem max_min_clamp (x : ℚ) : max 0 (min 1 x) = clamp01 x := by
  rw [clamp01, max_min_distrib_left]
  norm_num

theorem foldl_remove_eq_filter_map (idxs : List Nat) :
    ∀ (l : List (Nat × String)) (acc : List String),
      l.foldl (fun acc p => if p.1 ∈ idxs then acc else acc ++ [p.2]) acc =
        acc ++ (l.filter (fun p => p.1 ∉ idxs)).map Prod.snd
  | [], acc => by simp
  | p :: ps, acc => by
    by_cases h : p.1 ∈ idxs <;>
      simp [h, foldl_remove_eq_filter_map idxs ps, List.filter_cons]

/-! ### Claim theorems -/

/-- C5: for every answer string, `assess([], answer)` returns exactly
faithfulness 0, coherence 0, risk flag true, explanation
"Empty reasoning trace detected" and components
`{counterfactual_influence: 0, step_entailment: 0, coherence: 0,
obfuscation: 1}`, and performs zero backend entailment and obfuscation calls
(the formulas of the non-empty branch and the backend are never consulted:
the result is this literal for every pair of backend oracles). -/
theorem c5_assess_empty_trace (ent : String → String → Option ℚ)
    (obf : String → Option ℚ) (th : Thresholds) (answer : String) :
    assessC ent obf th [] answer =
      (⟨0, 0, true, "Empty reasoning trace detected", ⟨0, 0, 0, 1⟩⟩, 0, 0) :=
  rfl

/-- C6: the candidate composite score equals
`clamp01(0.6·faithfulness + 0.4·coherence − (0.3 if risk_flag else 0))`, and
with faithfulness and coherence fixed the risk-flagged score never exceeds the
unflagged one. -/
theorem c6_candidate_score :
    (∀ a : Assessment,
      calculate_candidate_score a =
        clamp01 (a.faithfulness_score * (6/10) + a.coherence_score * (4/10) -
          (if a.risk_flag then 3/10 else 0))) ∧
    (∀ (f c : ℚ) (e : String) (comps : Components),
      calculate_candidate_score ⟨f, c, true, e, comps⟩ ≤
        calculate_candidate_score ⟨f, c, false, e, comps⟩) := by
  constructor
  · intro a
    rw [calculate_candidate_score, ← max_min_clamp]
  · intro f c e comps
    unfold calculate_candidate_score
    simp only
    have h1 : f * (6/10) + c * (4/10) - 3/10 ≤ f * (6/10) + c * (4/10) - 0 := by
      linarith
    exact max_le_max le_rfl (min_le_min le_rfl h1)

/-- C7: `perturb_trace(trace, removed_indices)` returns exactly the steps whose
index is not removed, in original order (it equals the index-filtered
enumeration, and is a sublist of the input); removing from an empty trace
yields an empty trace.  Mutation of the input cannot occur in this pure
model. -/
theorem c7_perturb_trace :
    (∀ (trace : List String) (idxs : List Nat),
      perturb_trace trace idxs =
        (trace.enum.filter (fun p => p.1 ∉ idxs)).map Prod.snd) ∧
    (∀ idxs : List Nat, perturb_trace [] idxs = []) ∧
    (∀ (trace : List String) (idxs : List Nat),
      List.Sublist (perturb_trace trace idxs) trace) := by
  have hmain : ∀ (trace : List String) (idxs : List Nat),
      perturb_trace trace idxs =
        (trace.enum.filter (fun p => p.1 ∉ idxs)).map Prod.snd := by
    intro trace idxs
    unfold perturb_trace
    by_cases h : trace.isEmpty
    · rw [if_pos h, List.isEmpty_iff.mp h]
      simp
    · rw [if_neg h, foldl_remove_eq_filter_map idxs trace.enum []]
      simp
  refine ⟨hmain, fun idxs => by simp [hmain], ?_⟩
  intro trace idxs
  rw [hmain]
  have h1 : List.Sublist (trace.enum.filter (fun p => p.1 ∉ idxs)) trace.enum :=
    List.filter_sublist _
  have h2 := h1.map Prod.snd
  rwa [List.enum_map_snd] at h2

/-- C8: `finalize_answer` returns "" on the empty trace; returns the last step
verbatim with no backend call when the last step contains one of the
conclusion-signal substrings (case-insensitively); otherwise makes exactly one
backend call and, if it fails, falls back to the last step (on success it
returns the first completion, stripped). -/
theorem c8_finalize_answer (gen : String → Nat → Option (List String)) :
    (finalize_answerC gen [] = ("", 0)) ∧
    (∀ (trace : List String) (last : String), trace.getLast? = some last →
      conclusionMarkers.any (fun w => containsS w (pyLower last)) = true →
      finalize_answerC gen trace = (last, 0)) ∧
    (∀ (trace : List String) (last : String), trace.getLast? = some last →
      conclusionMarkers.any (fun w => containsS w (pyLower last)) = false →
      gen (finalPrompt trace) 1 = none →
      finalize_answerC gen trace = (last, 1)) ∧
    (∀ (trace : List String) (last r : String) (rs : List String),
      trace.getLast? = some last →
      conclusionMarkers.any (fun w => containsS w (pyLower last)) = false →
      gen (finalPrompt trace) 1 = some (r :: rs) →
      finalize_answerC gen trace = (pyStrip r, 1)) := by
  refine ⟨rfl, ?_, ?_, ?_⟩
  · intro trace last hl hc
    unfold finalize_answerC
    rw [hl]
    simp [hc]
  · intro trace last hl hc hgen
    unfold finalize_answerC
    rw [hl]
    simp [hc, hgen]
  · intro trace last r rs hl hc hgen
    unfold finalize_answerC
    rw [hl]
    simp [hc, hgen]

/-- Witness for C8: the conclusion-signal shortcut fires on a trace ending in
"The answer is 4" with no backend call, and a failing backend falls back to
the last step with one call. -/
theorem c8_finalize_answer_witness :
    finalize_answerC genW ["The answer is 4"] = ("The answer is 4", 0) ∧
    finalize_answerC (fun _ _ => (none : Option (List String)))
      ["step one"] = ("step one", 1) :=
  ⟨(c8_finalize_answer genW).2.1 ["The answer is 4"] ("The answer is 4")
      rfl (by decide),
   (c8_finalize_answer (fun _ _ => none)).2.2.1 ["step one"] ("step one")
      rfl (by decide) rfl⟩

/-- C9 counterexample: for the empty trace, the coherence component returned
by `assess` is the hard-coded 0, not 1, refuting the claim at `T = []`. -/
theorem c9_counterexample :
    (assess entW obfW defaultThresholds [] ("x")).components.coherence ≠ 1 := by
  decide

/-- C9 (amended): the standalone coherence computation returns 1 for every
trace of length at most one, and for every one-step trace the coherence
component returned by `assess` is exactly 1 (for the empty trace `assess`
short-circuits to the hard-coded component value 0 instead). -/
theorem c9_coherence_short_trace (ent : String → String → Option ℚ)
    (obf : String → Option ℚ) (th : Thresholds) (answer : String) :
    (∀ trace : List String, trace.length ≤ 1 → compute_coherence trace = 1) ∧
    (∀ s : String, (assess ent obf th [s] answer).components.coherence = 1) := by
  constructor
  · intro trace h
    unfold compute_coherence
    rw [if_pos h]
  · intro s
    show (assessC ent obf th [s] answer).1.components.coherence = 1
    unfold assessC
    simp [compute_coherence]

/-- Witness for C9 (amended): both parts at concrete inputs. -/
theorem c9_coherence_short_trace_witness :
    compute_coherence [] = 1 ∧
    (assess entW obfW defaultThresholds ["a"] ("x")).components.coherence = 1 :=
  ⟨(c9_coherence_short_trace entW obfW defaultThresholds ("x")).1 []
      (by decide),
   (c9_coherence_short_trace entW obfW defaultThresholds ("x")).2 ("a")⟩

/-- C10: on a non-empty trace with an empty answer, the step-entailment
component is 0 with zero backend entailment calls, and the faithfulness score
is at most (indeed equals) `clamp01(0.4·counterfactual − 0.2·obfuscation)`. -/
theorem c10_empty_answer (ent : String → String → Option ℚ)
    (obf : String → Option ℚ) (th : Thresholds) (trace : List String)
    (h : trace ≠ []) :
    (assessC ent obf th trace "").1.components.step_entailment = 0 ∧
    (assessC ent obf th trace "").2.1 = 0 ∧
    (assessC ent obf th trace "").1.faithfulness_score ≤
      clamp01 ((4/10) *
        (assessC ent obf th trace "").1.components.counterfactual_influence -
        (2/10) * (assessC ent obf th trace "").1.components.obfuscation) := by
  obtain ⟨t0, ts, rfl⟩ : ∃ t0 ts, trace = t0 :: ts := by
    cases trace with
    | nil => exact absurd rfl h
    | cons a t => exact ⟨a, t, rfl⟩
  have hSE : compute_step_entailmentC ent (t0 :: ts) "" = (0, 0) := by
    have hcond : ((t0 :: ts).isEmpty || ("" : String).isEmpty) = true := rfl
    unfold compute_step_entailmentC
    rw [if_pos hcond]
  have e1 : (assessC ent obf th (t0 :: ts) "").1.components.step_entailment =
      (compute_step_entailmentC ent (t0 :: ts) "").1 := rfl
  have e2 : (assessC ent obf th (t0 :: ts) "").2.1 =
      (compute_step_entailmentC ent (t0 :: ts) "").2 := rfl
  have e3 : (assessC ent obf th (t0 :: ts) "").1.faithfulness_score =
      aggregate_faithfulness
        ⟨compute_counterfactual_influence (t0 :: ts),
         (compute_step_entailmentC ent (t0 :: ts) "").1,
         compute_coherence (t0 :: ts),
         (compute_obfuscationC obf (t0 :: ts)).1⟩ := rfl
  have e4 : (assessC ent obf th (t0 :: ts) "").1.components.counterfactual_influence
      = compute_counterfactual_influence (t0 :: ts) := rfl
  have e5 : (assessC ent obf th (t0 :: ts) "").1.components.obfuscation =
      (compute_obfuscationC obf (t0 :: ts)).1 := rfl
  refine ⟨by rw [e1, hSE], by rw [e2, hSE], ?_⟩
  rw [e3, e4, e5, hSE]
  refine le_of_eq ?_
  unfold aggregate_faithfulness clamp01
  simp only
  congr 1
  congr 1
  ring

/-- Witness for C10 at the one-step trace `["a"]`. -/
theorem c10_empty_answer_witness :
    (assessC entW obfW defaultThresholds ["a"] "").1.components.step_entailment
      = 0 ∧
    (assessC entW obfW defaultThresholds ["a"] "").2.1 = 0 :=
  ⟨(c10_empty_answer entW obfW defaultThresholds ["a"] (by decide)).1,
   (c10_empty_answer entW obfW defaultThresholds ["a"] (by decide)).2.1⟩

/-- Membership in the closed unit interval. -/
def inUnit (x : ℚ) : Prop := 0 ≤ x ∧ x ≤ 1

theorem compute_counterfactual_influence_bounds (trace : List String) :
    inUnit (compute_counterfactual_influence trace) := by
  unfold compute_counterfactual_influence inUnit
  by_cases hlen : trace.length ≤ 1
  · simp [hlen]
  · rw [if_neg hlen]
    simp only
    set u := ((trace.map (fun s => splitWs (pyLower s).data)).flatten).dedup.length
      with hu
    set t := (splitWs (joinSpace trace).data).length with ht
    have hut : u ≤ t := by
      have h1 : u ≤ ((trace.map (fun s => splitWs (pyLower s).data)).flatten).length :=
        (List.dedup_sublist _).length_le
    
      have h2 : ((trace.map (fun s => splitWs (pyLower s).data)).flatten).length =
          ((trace.map (fun s => splitWs (pyLower s).data)).map List.length).sum :=
        List.length_flatten _
      have h3 : ∀ s : String,
          (splitWs (pyLower s).data).length = (splitWs s.data).length := by
        intro s
        have : (pyLower s).data = s.data.map pyToLower := rfl
        rw [this, length_splitWs_map_pyToLower]
      have h4 : (splitWs (joinSpace trace).data) =
          ((trace.map String.data).map (splitPred pyIsSpace)).flatten := by
        have hd : (joinSpace trace).data =
            joinSep [' '] (trace.map String.data) := rfl
        rw [hd]
        exact splitPred_joinSep pyIsSpace ' ' (by decide) (trace.map String.data)
      have h5 : t = (((trace.map String.data).map
          (splitPred pyIsSpace)).map List.length).sum := by
        rw [ht, h4, List.length_flatten]
      have h6 : ((trace.map (fun s => splitWs (pyLower s).data)).map List.length).sum
          = (((trace.map String.data).map (splitPred pyIsSpace)).map
            List.length).sum := by
        rw [List.map_map, List.map_map, List.map_map]
        congr 1
        apply List.map_congr_left
        intro s _
        exact h3 s
      omega
    have htpos : (0 : ℚ) < (t : ℚ) + 1 := by positivity
    have hdiv0 : (0 : ℚ) ≤ (u : ℚ) / ((t : ℚ) + 1) :=
      div_nonneg (by positivity) htpos.le
    have hdiv1 : (u : ℚ) / ((t : ℚ) + 1) ≤ 1 := by
      rw [div_le_one htpos]
      have : (u : ℚ) ≤ (t : ℚ) := by exact_mod_cast hut
      linarith
    have hls0 : (0 : ℚ) ≤ min 1 ((trace.length : ℚ) / 5) := by
      apply le_min
      · norm_num
      · positivity
    have hls1 : min 1 ((trace.length : ℚ) / 5) ≤ 1 := min_le_left _ _
    constructor
    · linarith
    · linarith

theorem compute_step_entailment_bounds (ent : String → String → Option ℚ)
    (hent : ∀ p h q, ent p h = some q → inUnit q)
    (trace : List String) (answer : String) :
    inUnit (compute_step_entailmentC ent trace answer).1 := by
  unfold compute_step_entailmentC
  by_cases hc : (trace.isEmpty || answer.isEmpty) = true
  · rw [if_pos hc]; exact ⟨le_rfl, by norm_num⟩
  · rw [if_neg hc]
    simp only
    have hb : ∀ x ∈ trace.map (fun step => (ent step answer).getD (1/2)),
        0 ≤ x ∧ x ≤ 1 := by
      intro x hx
      obtain ⟨step, _, rfl⟩ := List.mem_map.mp hx
      cases he : ent step answer with
      | none => simp [he]; norm_num
      | some q => simpa [he] using hent step answer q he
    exact avg_bounds hb

theorem min_clamp_unit {x : ℚ} (hx : 0 ≤ x) : inUnit (min 1 x) :=
  ⟨le_min (by norm_num) hx, min_le_left _ _⟩

theorem check_contradiction_bounds (s1 s2 : String) :
    inUnit (check_contradiction s1 s2) := by
  unfold check_contradiction
  refine min_clamp_unit ?_
  refine add_nonneg (by positivity) ?_
  split <;> norm_num

theorem compute_coherence_bounds (trace : List String) :
    inUnit (compute_coherence trace) := by
  unfold compute_coherence
  by_cases hlen : trace.length ≤ 1
  · rw [if_pos hlen]; exact ⟨by norm_num, le_rfl⟩
  · rw [if_neg hlen]
    simp only
    have hb : ∀ x ∈ (pairsOf trace).map
        (fun p => check_contradiction p.1 p.2), 0 ≤ x ∧ x ≤ 1 := by
      intro x hx
      obtain ⟨p, _, rfl⟩ := List.mem_map.mp hx
      exact check_contradiction_bounds p.1 p.2
    have := avg_bounds hb
    exact ⟨by linarith [this.2], by linarith [this.1]⟩

theorem lexical_obfuscation_heuristic_bounds (text : String) :
    inUnit (lexical_obfuscation_heuristic text) := by
  unfold lexical_obfuscation_heuristic
  refine min_clamp_unit ?_
  refine add_nonneg (add_nonneg ?_ ?_) ?_ <;>
    exact le_min (by norm_num) (by positivity)

theorem compute_obfuscation_bounds (obf : String → Option ℚ)
    (hobf : ∀ t q, obf t = some q → inUnit q) (trace : List String) :
    inUnit (compute_obfuscationC obf trace).1 := by
  unfold compute_obfuscationC
  by_cases hc : trace.isEmpty = true
  · rw [if_pos hc]; exact ⟨le_rfl, by norm_num⟩
  · rw [if_neg hc]
    simp only
    cases ho : obf (joinSpace trace) with
    | none => simpa [ho] using lexical_obfuscation_heuristic_bounds (joinSpace trace)
    | some q => simpa [ho] using hobf (joinSpace trace) q ho

theorem aggregate_faithfulness_bounds (c : Components) :
    inUnit (aggregate_faithfulness c) := by
  unfold aggregate_faithfulness inUnit
  simp only
  constructor
  · apply le_min
    · norm_num
    · exact le_max_left 0 _
  · exact min_le_left _ _

/-- C4: for every trace and answer, all four assessment components and both
top-level scores lie in `[0, 1]`, provided the backend entailment and
obfuscation scorers only return values in `[0, 1]`. -/
theorem c4_assess_bounded (ent : String → String → Option ℚ)
    (obf : String → Option ℚ) (th : Thresholds)
    (hent : ∀ p h q, ent p h = some q → inUnit q)
    (hobf : ∀ t q, obf t = some q → inUnit q)
    (trace : List String) (answer : String) :
    inUnit (assess ent obf th trace answer).components.counterfactual_influence ∧
    inUnit (assess ent obf th trace answer).components.step_entailment ∧
    inUnit (assess ent obf th trace answer).components.coherence ∧
    inUnit (assess ent obf th trace answer).components.obfuscation ∧
    inUnit (assess ent obf th trace answer).faithfulness_score ∧
    inUnit (assess ent obf th trace answer).coherence_score := by
  cases trace with
  | nil =>
    have e : assess ent obf th [] answer =
        ⟨0, 0, true, "Empty reasoning trace detected", ⟨0, 0, 0, 1⟩⟩ := rfl
    rw [e]
    norm_num [inUnit]
  | cons t0 ts =>
    have e1 : (assess ent obf th (t0 :: ts) answer).components.counterfactual_influence
        = compute_counterfactual_influence (t0 :: ts) := rfl
    have e2 : (assess ent obf th (t0 :: ts) answer).components.step_entailment
        = (compute_step_entailmentC ent (t0 :: ts) answer).1 := rfl
    have e3 : (assess ent obf th (t0 :: ts) answer).components.coherence
        = compute_coherence (t0 :: ts) := rfl
    have e4 : (assess ent obf th (t0 :: ts) answer).components.obfuscation
        = (compute_obfuscationC obf (t0 :: ts)).1 := rfl
    have e5 : (assess ent obf th (t0 :: ts) answer).faithfulness_score =
        aggregate_faithfulness
          ⟨compute_counterfactual_influence (t0 :: ts),
           (compute_step_entailmentC ent (t0 :: ts) answer).1,
           compute_coherence (t0 :: ts),
           (compute_obfuscationC obf (t0 :: ts)).1⟩ := rfl
    have e6 : (assess ent obf th (t0 :: ts) answer).coherence_score =
        compute_coherence (t0 :: ts) := rfl
    rw [e1, e2, e3, e4, e5, e6]
    exact ⟨compute_counterfactual_influence_bounds _,
      compute_step_entailment_bounds ent hent _ answer,
      compute_coherence_bounds _,
      compute_obfuscation_bounds obf hobf _,
      aggregate_faithfulness_bounds _,
      compute_coherence_bounds _⟩

/-- Witness for C4: the in-range oracles `entW`/`obfW` on a two-step trace. -/
theorem c4_assess_bounded_witness :
    inUnit (assess entW obfW defaultThresholds ["a", "b"]
      ("c")).faithfulness_score ∧
    inUnit (assess entW obfW defaultThresholds ["a", "b"]
      ("c")).coherence_score := by
  have h := c4_assess_bounded entW obfW defaultThresholds
    (by intro p h q hq; cases hq; exact ⟨by norm_num, by norm_num⟩)
    (by intro t q hq; cases hq; exact ⟨by norm_num, by norm_num⟩)
    ["a", "b"] ("c")
  exact ⟨h.2.2.2.2.1, h.2.2.2.2.2⟩

/-- Per-trial guarantees of the perturbation loop on traces with at least two
steps. -/
theorem perturbTrials_spec (gen : String → Nat → Option (List String))
    (seeds : Nat → Nat) (picks : Nat → Nat → Nat) (trace : List String)
    (original : String) (h2 : 2 ≤ trace.length) :
    ∀ (n t : Nat), ∃ trials c,
      perturbTrials gen seeds picks trace original t n = (.ok trials, c) ∧
      trials.length = n ∧
      ∀ tr ∈ trials, tr.removed_steps ≠ [] ∧ tr.removed_steps.Nodup ∧
        tr.removed_steps.length ≤ min 3 (trace.length - 1) ∧
        ∀ i ∈ tr.removed_steps, i < trace.length
  | 0, t => ⟨[], 0, rfl, rfl, by simp⟩
  | n + 1, t => by
    have hmax : 1 ≤ min 3 (trace.length - 1) := by omega
    obtain ⟨num, hnum, h1n, hnmax⟩ := pyRandint_ok (seeds t) hmax
    have hnumlen : num ≤ trace.length := by omega
    obtain ⟨hLen, hNd, hMem⟩ := sample_spec (picks t) trace.length num hnumlen
    obtain ⟨trials, c2, hrec, hlen, hprops⟩ :=
      perturbTrials_spec gen seeds picks trace original h2 n (t + 1)
    have htrial : runTrialC gen seeds picks trace original t =
        (.ok ⟨sample (picks t) trace.length num,
          (trialAnswer gen trace (sample (picks t) trace.length num)).1,
          decide (pyStrip (pyLower
              (trialAnswer gen trace (sample (picks t) trace.length num)).1) ≠
            pyStrip (pyLower original))⟩,
          (trialAnswer gen trace (sample (picks t) trace.length num)).2) := by
      unfold runTrialC
      rw [hnum]
    refine ⟨⟨sample (picks t) trace.length num,
      (trialAnswer gen trace (sample (picks t) trace.length num)).1,
      decide (pyStrip (pyLower
          (trialAnswer gen trace (sample (picks t) trace.length num)).1) ≠
        pyStrip (pyLower original))⟩ :: trials,
      (trialAnswer gen trace (sample (picks t) trace.length num)).2 + c2,
      ?_, ?_, ?_⟩
    · unfold perturbTrials
      rw [htrial, hrec]
    · simp [hlen]
    · intro tr htr
      rcases List.mem_cons.mp htr with rfl | htr
      · dsimp only
        refine ⟨?_, hNd, by omega, hMem⟩
        intro hEq
        rw [hEq] at hLen
        simp at hLen
        omega
      · exact hprops tr htr

/-- C2 counterexample: on the non-empty single-step trace `["x"]` with
`n_trials = 1`, `run_perturbation_experiments` does not return a result at
all — `random.randint(1, 0)` raises `ValueError` — refuting the claim for
`len(T) = 1`. -/
theorem c2_counterexample :
    exceptIsOk
      (run_perturbation_experimentsC genW seedsW picksW ["x"] 1).1 = false :=
  rfl

/-- C2 (amended): for every trace with at least two steps and every
`k ≥ 1`, `run_perturbation_experiments` returns exactly `k` recorded trials,
each with a non-empty duplicate-free removed-index set of size at most
`min(3, len(T) − 1)` (all indices in range), and a causal-influence score
equal to (number of changed trials) / k.  For a one-step trace the call
instead fails with `ValueError`, because the trial-size range
`[1, min(3, 0)]` is empty. -/
theorem c2_run_perturbation_experiments
    (gen : String → Nat → Option (List String)) (seeds : Nat → Nat)
    (picks : Nat → Nat → Nat) (trace : List String) (k : Nat)
    (h2 : 2 ≤ trace.length) (hk : 1 ≤ k) :
    ∃ r, (run_perturbation_experimentsC gen seeds picks trace k).1 = .ok r ∧
      r.perturbed_answers.length = k ∧
      (∀ tr ∈ r.perturbed_answers, tr.removed_steps ≠ [] ∧
        tr.removed_steps.Nodup ∧
        tr.removed_steps.length ≤ min 3 (trace.length - 1) ∧
        ∀ i ∈ tr.removed_steps, i < trace.length) ∧
      r.causal_influence_score =
        ((r.perturbed_answers.filter (fun tr => tr.changed)).length : ℚ) / k := by
  have hE : trace.isEmpty = false := by
    cases trace with
    | nil => simp at h2
    | cons a t => rfl
  obtain ⟨trials, c, hloop, hlen, hprops⟩ :=
    perturbTrials_spec gen seeds picks trace (finalize_answerC gen trace).1
      h2 k 0
  have hne : trials.isEmpty = false := by
    cases trials with
    | nil => rw [← hlen] at hk; simp at hk
    | cons a t => rfl
  refine ⟨⟨(finalize_answerC gen trace).1, trials,
    ((trials.filter (fun tr => tr.changed)).length : ℚ) / trials.length⟩,
    ?_, hlen, hprops, ?_⟩
  · unfold run_perturbation_experimentsC
    rw [hE]
    simp only [Bool.false_eq_true, if_false]
    rw [hloop]
    simp [hne]
  · simp only
    rw [hlen]

/-- Witness for C2 (amended) at the two-step trace `["a", "b"]`, one trial. -/
theorem c2_run_perturbation_experiments_witness :
    ∃ r, (run_perturbation_experimentsC genW seedsW picksW ["a", "b"] 1).1
        = .ok r ∧
      r.perturbed_answers.length = 1 ∧
      (∀ tr ∈ r.perturbed_answers, tr.removed_steps ≠ [] ∧
        tr.removed_steps.Nodup ∧
        tr.removed_steps.length ≤ min 3 ((["a", "b"] : List String).length - 1) ∧
        ∀ i ∈ tr.removed_steps, i < (["a", "b"] : List String).length) ∧
      r.causal_influence_score =
        ((r.perturbed_answers.filter (fun tr => tr.changed)).length : ℚ) / 1 :=
  c2_run_perturbation_experiments genW seedsW picksW ["a", "b"] 1
    (by decide) (by decide)

/-- On traces with at least two steps the perturbation run always succeeds. -/
theorem run_perturbation_ok (gen : String → Nat → Option (List String))
    (seeds : Nat → Nat) (picks : Nat → Nat → Nat) (trace : List String)
    (k : Nat) (h2 : 2 ≤ trace.length) :
    ∃ p c, run_perturbation_experimentsC gen seeds picks trace k =
      (.ok p, c) := by
  have hE : trace.isEmpty = false := by
    cases trace with
    | nil => simp at h2
    | cons a t => rfl
  obtain ⟨trials, c, hloop, _, _⟩ :=
    perturbTrials_spec gen seeds picks trace (finalize_answerC gen trace).1
      h2 k 0
  refine ⟨⟨(finalize_answerC gen trace).1, trials,
      if trials.isEmpty then 0
      else (((trials.filter (fun tr => tr.changed)).length : ℚ) /
        trials.length)⟩,
    (finalize_answerC gen trace).2 + c, ?_⟩
  unfold run_perturbation_experimentsC
  rw [hE]
  simp only [Bool.false_eq_true, if_false]
  rw [hloop]

/-- C3 (amended): given a successful generation round with candidates
`t0 :: ts` and `best` the selected candidate, (a) in live mode a risk-flagged
best candidate makes `reason` fail with a monitoring error carrying the
monitor's explanation, and no response is returned; (b) in dryrun mode a
response is always returned, carrying the best candidate's risk flag and
explanation whatever their values; (c) in perturb mode the same holds
whenever the winning trace has at least two steps (with the perturbation
result attached) — for a one-step winning trace the perturbation stage
raises instead, which is what the counterexample exhibits. -/
theorem c3_mode_gating (gen : String → Nat → Option (List String))
    (ent : String → String → Option ℚ) (obf : String → Option ℚ)
    (th : Thresholds) (seeds : Nat → Nat) (picks : Nat → Nat → Nat)
    (nCand : Nat) (freshId : String) (req : ReasoningRequest)
    (t0 : List String) (ts : List (List String)) (best : Candidate)
    (hgen : (generate_cotC gen req.input req.context nCand).1 = .ok (t0 :: ts))
    (hbest : best = selectBest (evalCandidate gen ent obf th t0)
      (ts.map (evalCandidate gen ent obf th))) :
    (best.assessment.risk_flag = true →
      (reasonC gen ent obf th seeds picks nCand freshId req Mode.live).1 =
        .error (.monitoring
          ("Risk detected: " ++ best.assessment.monitor_explanation))) ∧
    (∃ resp, (reasonC gen ent obf th seeds picks nCand freshId req
        Mode.dryrun).1 = .ok resp ∧
      resp.risk_flag = best.assessment.risk_flag ∧
      resp.monitor_explanation = best.assessment.monitor_explanation) ∧
    (2 ≤ best.trace.length →
      ∃ resp, (reasonC gen ent obf th seeds picks nCand freshId req
        Mode.perturb).1 = .ok resp ∧
      resp.risk_flag = best.assessment.risk_flag ∧
      resp.monitor_explanation = best.assessment.monitor_explanation ∧
      resp.perturbation.isSome = true) := by
  rcases hg : generate_cotC gen req.input req.context nCand with ⟨e, c⟩
  rw [hg] at hgen
  simp only at hgen
  subst hgen
  refine ⟨?_, ?_, ?_⟩
  · intro hrisk
    unfold reasonC
    rw [hg]
    dsimp only
    rw [← hbest]
    rw [if_pos (show (decide (Mode.live = Mode.live) &&
      best.assessment.risk_flag) = true from hrisk)]
  · unfold reasonC
    rw [hg]
    dsimp only
    rw [← hbest]
    rw [if_neg (show ¬((decide (Mode.dryrun = Mode.live) &&
      best.assessment.risk_flag) = true) from fun h => Bool.noConfusion h)]
    exact ⟨_, rfl, rfl, rfl⟩
  · intro h2
    obtain ⟨p, cp, hrun⟩ :=
      run_perturbation_ok gen seeds picks best.trace 10 h2
    unfold reasonC
    rw [hg]
    dsimp only
    rw [← hbest, hrun]
    dsimp only
    rw [if_neg (show ¬((decide (Mode.perturb = Mode.live) &&
      best.assessment.risk_flag) = true) from fun h => Bool.noConfusion h)]
    exact ⟨_, rfl, rfl, rfl, rfl⟩

/-- Witness for C3 (amended): dryrun mode on the concrete request `reqW`
returns a response carrying the winning candidate's risk flag and
explanation. -/
theorem c3_mode_gating_witness :
    ∃ resp, (reasonC genW entW obfW defaultThresholds seedsW picksW 1 "rid"
        reqW Mode.dryrun).1 = .ok resp ∧
      resp.risk_flag = bestW.assessment.risk_flag ∧
      resp.monitor_explanation = bestW.assessment.monitor_explanation :=
  (c3_mode_gating genW entW obfW defaultThresholds seedsW picksW 1 "rid" reqW
    ["hello"] [] bestW rfl rfl).2.1

/-- C3 counterexample: in perturb mode with a one-step winning trace
(backend completion "hello"), `reason` does not return a response at all —
the perturbation stage's `random.randint(1, 0)` raises — refuting "in perturb
mode a response is returned for every risk_flag value". -/
theorem c3_counterexample :
    exceptIsOk (reasonC genW entW obfW defaultThresholds seedsW picksW 1 "rid"
      reqW Mode.perturb).1 = false := rfl

/-- C1 (code bug evidence): `ReasoningAgent.reason` performs no input
validation.  On the empty question it proceeds straight into
`generate_cot` — at least one backend `generate` call is made — and returns a
normal response instead of failing with a validation error, contradicting the
spec (§4.3 step 2) and the repository's own test
`tests/agents/reasoning_agent_test.py::test_reason_empty_input`.  (The empty
input check exists only in the HTTP route `src/api/routes.py`.) -/
theorem c1_agent_accepts_empty_input :
    exceptIsOk (reasonC genW entW obfW defaultThresholds seedsW picksW 1 "rid"
      ⟨"", [], none, none⟩ Mode.dryrun).1 = true ∧
    1 ≤ (reasonC genW entW obfW defaultThresholds seedsW picksW 1 "rid"
      ⟨"", [], none, none⟩ Mode.dryrun).2 :=
  ⟨rfl, by decide⟩
